import Mathlib

/-!
Verification development for the rollercoaster_recommender repository.

The repository has two source files:
  * `coasters_scraper.py` — fetches a list of roller-coaster page titles from a
    category-listing API (`get_coaster_titles`), fetches and parses the wiki
    infobox for each title (`fetch_infobox_wikitext`, `extract_infobox_fields`),
    and writes one CSV (`scrape_coasters`).
  * `youtuber_data.py` — for each coaster row, searches a video platform for
    candidate videos, fetches their statistics, ranks them by view count and
    appends the top-K rows to a second CSV, resumable across runs
    (`build_coaster_videos_csv` and helpers).

This file shallowly embeds those functions as executable Lean definitions and
proves properties of them.  External HTTP collaborators (the wiki API and the
video platform API) are modelled as function parameters supplying the responses
the code would receive; file I/O is modelled as explicit list-valued state.
-/

/-! ## Pagination model: `get_coaster_titles` (coasters_scraper.py, lines 11-48)

The wiki listing API answers each request with a page of members plus an
optional continuation token.  A `server` models the external source: given its
own private state, the requested `cmlimit` and the continuation token the
client attached (none on the first request), it returns a `Page` and its next
state.  The loop body is embedded step for step:

    while len(titles) < max_coasters:
        params cmlimit = min(50, max_coasters - len(titles)) [plus token if any]
        members = response members
        for m in members: titles.append(m); if len(titles) >= max: break
        if "continue" in data: token = ...   else: break

The Python loop has no fuel; `getTitlesAux` takes an explicit fuel argument and
returns `none` when the fuel is exhausted before the loop exits, so that
non-termination of the source loop is expressible as `= none` for every fuel.
-/

structure Page where
  members : List String
  contTok : Option String
deriving DecidableEq, Repr

def getTitlesAux {σ : Type} (maxC : Nat) (server : σ → Nat → Option String → Page × σ) :
    Nat → σ → Option String → List String → Option (List String)
  | 0, _, _, _ => none
  | fuel+1, st, tok, titles =>
    if maxC ≤ titles.length then some titles
    else
      let pr := server st (min 50 (maxC - titles.length)) tok
      let titles' := titles ++ pr.1.members.take (maxC - titles.length)
      match pr.1.contTok with
      | some t => getTitlesAux maxC server fuel pr.2 (some t) titles'
      | none => some titles'

def get_coaster_titles {σ : Type} (maxC : Nat)
    (server : σ → Nat → Option String → Page × σ) (init : σ) (fuel : Nat) :
    Option (List String) :=
  getTitlesAux maxC server fuel init none []

/-- A source that answers the k-th request with `resp k`, regardless of the
request parameters: the most general deterministic response sequence. -/
def serverOfStream (resp : Nat → Page) : Nat → Nat → Option String → Page × Nat :=
  fun k _ _ => (resp k, k + 1)

/-- An honest category listing backed by the member list `src`: it serves the
next `limit` members in source order and returns a continuation token exactly
when members remain beyond those served. -/
def honestServer (src : List String) : Nat → Nat → Option String → Page × Nat :=
  fun pos limit _ =>
    let served := (src.drop pos).take limit
    (⟨served, if pos + served.length < src.length then some "cont" else none⟩,
     pos + served.length)

/-- A pathological source: every response carries a continuation token and no
members at all, so the accumulated title list never grows. -/
def emptyTokenStream : Nat → Page := fun _ => ⟨[], some "more"⟩

lemma getTitlesAux_emptyTokenStream_eq_none :
    ∀ (fuel k : Nat) (tok : Option String),
      getTitlesAux 1 (serverOfStream emptyTokenStream) fuel k tok [] = none := by
  intro fuel
  induction fuel with
  | zero => intro k tok; rfl
  | succ f ih =>
    intro k tok
    simp only [getTitlesAux, serverOfStream, emptyTokenStream]
    exact ih (k + 1) (some "more")

lemma getTitlesAux_isSome_of_contTok_none (maxC : Nat) (resp : Nat → Page) :
    ∀ (j fuel k : Nat) (tok : Option String) (titles : List String),
      (resp (k + j)).contTok = none → j + 1 ≤ fuel →
      (getTitlesAux maxC (serverOfStream resp) fuel k tok titles).isSome = true := by
  intro j
  induction j with
  | zero =>
    intro fuel k tok titles hnone hfuel
    match fuel, hfuel with
    | f+1, _ =>
      rw [Nat.add_zero] at hnone
      simp only [getTitlesAux, serverOfStream]
      split
      · rfl
      · simp [hnone]
  | succ j ih =>
    intro fuel k tok titles hnone hfuel
    match fuel, hfuel with
    | f+1, hf =>
      simp only [getTitlesAux, serverOfStream]
      split
      · rfl
      · cases h : (resp k).contTok with
        | none => simp [h]
        | some t =>
          simp only [h]
          exact ih f (k+1) (some t) _
            (by have hkj : k + 1 + j = k + (j + 1) := by omega
                rw [hkj]; exact hnone)
            (by omega)

lemma getTitlesAux_some_exit (maxC : Nat) (resp : Nat → Page) :
    ∀ (fuel k : Nat) (tok : Option String) (titles ts : List String),
      titles.length ≤ maxC →
      getTitlesAux maxC (serverOfStream resp) fuel k tok titles = some ts →
      ts.length = maxC ∨ ∃ n, (resp n).contTok = none := by
  intro fuel
  induction fuel with
  | zero =>
    intro k tok titles ts _ h
    exact absurd h (by simp [getTitlesAux])
  | succ f ih =>
    intro k tok titles ts hlen h
    simp only [getTitlesAux, serverOfStream] at h
    by_cases hc : maxC ≤ titles.length
    · rw [if_pos hc] at h
      left
      cases h
      omega
    · rw [if_neg hc] at h
      cases htok : (resp k).contTok with
      | none => exact Or.inr ⟨k, htok⟩
      | some t =>
        simp only [htok] at h
        exact ih (k+1) (some t)
          (titles ++ (resp k).members.take (maxC - titles.length)) ts
          (by simp [List.length_take]; omega) h

/-- C4: the claim states that the pagination loop of `get_coaster_titles`
terminates for *every* sequence of listing responses.  It does not: a source
whose every response carries a continuation token and an empty member list
makes the loop spin forever (the title list never grows, so `max_count` is
never reached and no exit is taken).  This closed theorem exhibits that
concrete response stream: no amount of fuel makes the loop return. -/
theorem C4_counterexample :
    ¬ ∃ fuel, (get_coaster_titles 1 (serverOfStream emptyTokenStream) 0 fuel).isSome = true := by
  rintro ⟨fuel, h⟩
  rw [get_coaster_titles, getTitlesAux_emptyTokenStream_eq_none fuel 0 none] at h
  exact absurd h (by simp)

/-- C4 (amended): the pagination loop of `get_coaster_titles` need not
terminate for an arbitrary response sequence; it terminates whenever some
response carries no continuation token (within one request of reaching it),
and whenever it does stop it is exactly because `max_count` identifiers were
collected or a response carried no continuation token. -/
theorem C4_pagination_exit (maxC : Nat) (resp : Nat → Page) :
    (∀ n fuel : Nat, (resp n).contTok = none → n + 1 ≤ fuel →
      (get_coaster_titles maxC (serverOfStream resp) 0 fuel).isSome = true)
    ∧ (∀ (fuel : Nat) (ts : List String),
      get_coaster_titles maxC (serverOfStream resp) 0 fuel = some ts →
      ts.length = maxC ∨ ∃ n, (resp n).contTok = none) := by
  refine ⟨fun n fuel hn hf => ?_, fun fuel ts h => ?_⟩
  · exact getTitlesAux_isSome_of_contTok_none maxC resp n fuel 0 none []
      (by simpa using hn) hf
  · exact getTitlesAux_some_exit maxC resp fuel 0 none [] ts (by simp) h

/-- A one-page response stream used to instantiate `C4_pagination_exit`. -/
def onePageStream : Nat → Page := fun _ => ⟨["a"], none⟩

/-- Witness for `C4_pagination_exit` at a concrete response stream. -/
theorem C4_pagination_exit_witness :
    (get_coaster_titles 3 (serverOfStream onePageStream) 0 1).isSome = true :=
  (C4_pagination_exit 3 onePageStream).1 0 1 rfl (by decide)

lemma getTitlesAux_honest (src : List String) (maxC : Nat) :
    ∀ (fuel pos : Nat) (tok : Option String),
      pos ≤ src.length → pos ≤ maxC → src.length - pos + 1 ≤ fuel →
      getTitlesAux maxC (honestServer src) fuel pos tok (src.take pos)
        = some (src.take (min maxC src.length)) := by
  intro fuel
  induction fuel with
  | zero => intro pos tok _ _ hf; omega
  | succ f ih =>
    intro pos tok hpos hpm hf
    have hlen : (src.take pos).length = pos := by
      rw [List.length_take]; omega
    by_cases hc : maxC ≤ pos
    · have hpm' : pos = maxC := le_antisymm hpm hc
      have hmin : min maxC src.length = maxC := by omega
      simp only [getTitlesAux]
      rw [if_pos (by rw [hlen]; omega), hmin, hpm']
    · have hposlt : pos < maxC := lt_of_not_ge hc
      simp only [getTitlesAux, honestServer, hlen]
      rw [if_neg (by omega)]
      set served := (src.drop pos).take (min 50 (maxC - pos)) with hserved
      have hsl : served.length = min (min 50 (maxC - pos)) (src.length - pos) := by
        rw [hserved, List.length_take, List.length_drop]
      have hl1 : 1 ≤ min 50 (maxC - pos) := by omega
      have hlim : min 50 (maxC - pos) ≤ maxC - pos := min_le_right _ _
      have htake : served.take (maxC - pos) = served :=
        List.take_of_length_le (by omega)
      have happ : src.take pos ++ served = src.take (pos + min 50 (maxC - pos)) :=
        (List.take_add src pos (min 50 (maxC - pos))).symm
      by_cases htk : pos + served.length < src.length
      · have hslim : served.length = min 50 (maxC - pos) := by omega
        rw [if_pos htk, htake, happ, hslim]
        exact ih (pos + min 50 (maxC - pos)) (some "cont")
          (by omega) (by omega) (by omega)
      · have hle : src.length ≤ pos + served.length := not_lt.mp htk
        have hsle : src.length = pos + served.length := by omega
        have hminr : min maxC src.length = src.length := by omega
        rw [if_neg htk, htake, happ, hminr]
        have h1 : src.take (pos + min 50 (maxC - pos)) = src :=
          List.take_of_length_le (by omega)
        rw [h1, List.take_length]

/-- C6: over an honest category listing backed by a distinct member list
`src` served in source order, `get_coaster_titles` returns exactly
`min max_count K` identifiers (`K = src.length`): the result is the length-
`min max_count K` initial segment of `src`, hence has that length, keeps the
source order (it is a prefix of `src`) and has no duplicates; and with
`max_count = 0` the result is the empty sequence for every server whatsoever,
i.e. without observing any response. -/
theorem C6_fetch_entity_list (src : List String) (maxC fuel : Nat)
    (hnd : src.Nodup) (hf : src.length + 1 ≤ fuel) :
    (get_coaster_titles maxC (honestServer src) 0 fuel
        = some (src.take (min maxC src.length)))
    ∧ (src.take (min maxC src.length)).length = min maxC src.length
    ∧ (src.take (min maxC src.length)).Nodup
    ∧ src.take (min maxC src.length) <+: src
    ∧ (∀ {σ : Type} (server : σ → Nat → Option String → Page × σ) (s0 : σ) (f : Nat),
        get_coaster_titles 0 server s0 (f + 1) = some []) := by
  refine ⟨?_, ?_, (List.take_sublist _ _).nodup hnd, List.take_prefix _ _, ?_⟩
  · have h := getTitlesAux_honest src maxC fuel 0 none (by omega) (by omega) (by omega)
    simpa [get_coaster_titles] using h
  · rw [List.length_take]; omega
  · intro σ server s0 f
    rfl

/-- Witness for `C6_fetch_entity_list` at a concrete three-member listing. -/
theorem C6_fetch_entity_list_witness :
    get_coaster_titles 2 (honestServer ["alpha", "beta", "gamma"]) 0 4
      = some ["alpha", "beta"] :=
  ((C6_fetch_entity_list ["alpha", "beta", "gamma"] 2 4 (by decide) (by decide)).1).trans
    (by rfl)


/-! ## Executable string primitives

Lean's own `String.trim`, `String.toLower`, `String.splitOn`, `String.toNat?`
and the `String` order are implemented over byte positions and are opaque to
kernel reduction, so the Python string operations are re-implemented here as
structurally recursive functions over `List Char` (a `String` is its list of
characters).  Each primitive names the Python operation it models. -/

/-- The characters Python's `str.strip` removes. -/
def isPySpace (c : Char) : Bool :=
  c == ' ' || c == '\t' || c == '\n' || c == '\r' || c == '\x0b' || c == '\x0c'

def trimChars (l : List Char) : List Char :=
  ((l.dropWhile isPySpace).reverse.dropWhile isPySpace).reverse

/-- Python `s.strip()`. -/
def pyStrip (s : String) : String := String.mk (trimChars s.data)

/-- Python `s.lower()` (ASCII case folding). -/
def pyLower (s : String) : String := String.mk (s.data.map Char.toLower)

/-- Python `s.startswith(p)`. -/
def pyStarts (s p : String) : Bool := p.data.isPrefixOf s.data

/-- Python `s.split(sep)` for a one-character separator. -/
def splitOnChar (sep : Char) : List Char → List (List Char)
  | [] => [[]]
  | c :: cs =>
    let r := splitOnChar sep cs
    if c == sep then [] :: r
    else
      match r with
      | [] => [[c]]
      | h :: t => (c :: h) :: t

/-- Python `sep.join(parts)` for a one-character separator. -/
def joinWith (sep : Char) : List (List Char) → List Char
  | [] => []
  | [x] => x
  | x :: xs => x ++ sep :: joinWith sep xs

/-- Python `s.splitlines()`, modelled as splitting on the newline character. -/
def splitLines (s : String) : List String := (splitOnChar '\n' s.data).map String.mk

def isDigitChar (c : Char) : Bool := 48 ≤ c.toNat && c.toNat ≤ 57

def digitsToNat (l : List Char) : Nat :=
  l.foldl (fun n c => n * 10 + (c.toNat - 48)) 0

/-- Python `int(s) if s and s.isdigit() else None`: parses only non-empty
all-digit strings, everything else is absent. -/
def pyDigits? (s : String) : Option Nat :=
  if !s.data.isEmpty && s.data.all isDigitChar then some (digitsToNat s.data) else none

/-- Code-point lexicographic strict order on character lists: the order Python
`sorted` uses on strings. -/
def charListLt : List Char → List Char → Bool
  | [], [] => false
  | [], _ :: _ => true
  | _ :: _, [] => false
  | a :: as, b :: bs =>
    if a.toNat < b.toNat then true
    else if b.toNat < a.toNat then false
    else charListLt as bs

def strLeB (a b : String) : Bool := !(charListLt b.data a.data)

/-! ## Infobox extraction: `extract_infobox_fields` (coasters_scraper.py, lines 73-180)

The Python function scans the wikitext's lines for the block opened by a line
starting (case-insensitively, after stripping) with the infobox marker,
collects the stripped lines until one starting with the closing braces, turns
`| key = value` lines into a raw key/value mapping (a line without `=` raises
`ValueError` inside a `try` and is skipped; a repeated key overwrites), and
resolves a fixed list of output fields through alias lists, first present
alias winning, an absent field becoming `""`. -/

def infoboxOpenMarker : String := "\x7b\x7binfobox roller coaster"

def infoboxCloseMarker : String := "\x7d\x7d"

def collectInfoLines : List String → Bool → List String
  | [], _ => []
  | l :: ls, inside =>
    let stripped := pyStrip l
    if !inside && pyStarts (pyLower stripped) infoboxOpenMarker then
      collectInfoLines ls true
    else if inside then
      if pyStarts stripped infoboxCloseMarker then []
      else stripped :: collectInfoLines ls inside
    else collectInfoLines ls false

/-- Python `line[1:].split("=", 1)` wrapped in `try/except ValueError`: a line
without `=` yields no pair (the exception is swallowed); otherwise the part
before the first `=` is the key (stripped, lowered) and everything after it
the value (stripped). -/
def splitKV (line : String) : Option (String × String) :=
  match splitOnChar '=' (line.data.drop 1) with
  | [] => none
  | [_] => none
  | k :: vs =>
    some (String.mk ((trimChars k).map Char.toLower),
          String.mk (trimChars (joinWith '=' vs)))

def rawFieldsOf (infoLines : List String) : List (String × String) :=
  infoLines.foldl (fun acc line =>
    if pyStarts line "|" then
      match splitKV line with
      | none => acc
      | some kv => acc ++ [kv]
    else acc) []

/-- Dictionary lookup over an insertion-ordered association list in which a
repeated key overwrites: the last binding wins, as in a Python dict. -/
def lookupLast (m : List (String × String)) (k : String) : Option String :=
  (m.reverse.find? (fun p => p.1 == k)).map Prod.snd

def pick (m : List (String × String)) : List String → String
  | [] => ""
  | k :: ks =>
    match lookupLast m k with
    | some v => v
    | none => pick m ks

def extract_infobox_fields (wikitext : String) : List (String × String) :=
  if wikitext.data.isEmpty then []
  else
    let raw := rawFieldsOf (collectInfoLines (splitLines wikitext) false)
    [("name", pick raw ["name"]),
     ("park", pick raw ["park"]),
     ("location", pick raw ["location"]),
     ("country", pick raw ["country"]),
     ("state", pick raw ["state"]),
     ("section", pick raw ["section"]),
     ("coord_lat", pick raw ["coord_lat", "latitude", "lat"]),
     ("coord_long", pick raw ["coord_long", "longitude", "long", "lon"]),
     ("status", pick raw ["status"]),
     ("opened", pick raw ["opened", "openingdate", "opening_date", "opening_year"]),
     ("closed", pick raw ["closed"]),
     ("manufacturer", pick raw ["manufacturer"]),
     ("builder", pick raw ["builder"]),
     ("designer", pick raw ["designer"]),
     ("product", pick raw ["product", "model"]),
     ("class", pick raw ["class"]),
     ("type", pick raw ["type", "coaster_type"]),
     ("speed", pick raw ["speed", "top_speed"]),
     ("height", pick raw ["height", "max_height"]),
     ("drop", pick raw ["drop"]),
     ("angle", pick raw ["angle"]),
     ("g_force", pick raw ["g-force", "g_force", "gforce"]),
     ("inversions", pick raw ["inversions"]),
     ("length", pick raw ["length"]),
     ("duration", pick raw ["duration"]),
     ("layout", pick raw ["layout"]),
     ("lift_launch", pick raw ["lift/launch", "lift", "launch", "lift_launch"]),
     ("min_height", pick raw ["min_height", "minimum_height"]),
     ("min_height_unaccompanied", pick raw ["min_height_unaccompanied"]),
     ("max_height", pick raw ["max_height", "maximum_height"]),
     ("restriction", pick raw ["restriction"]),
     ("riders_hour", pick raw ["riders/hour", "riders_per_hour", "capacity"]),
     ("riders_train", pick raw ["riders/train", "riders_per_train"])]

/-- The Python parameter is annotated `str` but the function's first line,
`if not wikitext: return {}`, also absorbs `None`; the optional input is made
explicit here. -/
def extract_fields (w : Option String) : List (String × String) :=
  extract_infobox_fields (w.getD "")

def fixedFieldKeys : List String :=
  ["name", "park", "location", "country", "state", "section", "coord_lat",
   "coord_long", "status", "opened", "closed", "manufacturer", "builder",
   "designer", "product", "class", "type", "speed", "height", "drop", "angle",
   "g_force", "inversions", "length", "duration", "layout", "lift_launch",
   "min_height", "min_height_unaccompanied", "max_height", "restriction",
   "riders_hour", "riders_train"]

/-- Sanity check mirroring the spec's own test vector: the two infobox fields
present in the markup are extracted verbatim. -/
lemma extract_sample_speed_height :
    lookupLast (extract_infobox_fields
        ("\x7b\x7bInfobox roller coaster\n| speed = 90 km/h\n| height = 50 m\n\x7d\x7d"))
      "speed" = some "90 km/h"
    ∧ lookupLast (extract_infobox_fields
        ("\x7b\x7bInfobox roller coaster\n| speed = 90 km/h\n| height = 50 m\n\x7d\x7d"))
      "height" = some "50 m" := by
  refine ⟨?_, ?_⟩ <;> rfl

/-- C7: `extract_fields` is a total function — every input, including the
absent and the empty one, yields a field mapping rather than an error — and
its key list is input-independent apart from the empty-input case: empty or
absent markup gives the empty mapping, and any other markup, however
malformed, gives a mapping whose keys are exactly the fixed semantic field
list (with values possibly `""` when nothing resolved). -/
theorem C7_extract_total (w : Option String) :
    (extract_fields w).map Prod.fst
      = if (w.getD "").data.isEmpty then [] else fixedFieldKeys := by
  cases w with
  | none => rfl
  | some s =>
    by_cases h : s.data.isEmpty
    · simp [extract_fields, extract_infobox_fields, h]
    · simp [extract_fields, extract_infobox_fields, h, fixedFieldKeys]

/-! ## Enrichment loop: `scrape_coasters` (coasters_scraper.py, lines 181-216)

The loop fetches each title's wikitext (the external collaborator
`fetch_infobox_wikitext` is a parameter `fetch`), skips falsy results
(`None` or `""`), otherwise extracts the infobox, sets `info["title"]` and
appends `info` to `rows`.  Python's loop variables survive the loop, so the
model threads the last bound `info` (`none` while it was never bound).

After the loop the code derives the CSV header from the *last* `info` in
scope and then runs `rows.append(info)` a second time, so the final row list
written to the file is `rows ++ [info]`; and when `info` was never bound the
header derivation raises `NameError` before `open(...)`, modelled as
`Except.error .unboundInfo` carrying no output. -/

inductive ScrapeError
  | unboundInfo
deriving DecidableEq, Repr

structure ScrapeOutput where
  fieldnames : List String
  fileRows : List (List (String × String))
deriving DecidableEq, Repr

def scrapeLoop (fetch : String → Option String) :
    List String → List (List (String × String)) → Option (List (String × String)) →
    List (List (String × String)) × Option (List (String × String))
  | [], rows, lastInfo => (rows, lastInfo)
  | t :: ts, rows, lastInfo =>
    match fetch t with
    | none => scrapeLoop fetch ts rows lastInfo
    | some w =>
      if w.data.isEmpty then scrapeLoop fetch ts rows lastInfo
      else
        let info := extract_infobox_fields w ++ [("title", t)]
        scrapeLoop fetch ts (rows ++ [info]) (some info)

def scrape_coasters (titles : List String) (fetch : String → Option String) :
    Except ScrapeError ScrapeOutput :=
  match scrapeLoop fetch titles [] none with
  | (_, none) => .error .unboundInfo
  | (rows, some info) =>
    .ok { fieldnames := "title" :: (info.map Prod.fst).filter (fun k => k ≠ "title"),
          fileRows := rows ++ [info] }

lemma scrapeLoop_all_skipped (fetch : String → Option String) :
    ∀ (titles : List String) (rows : List (List (String × String)))
      (li : Option (List (String × String))),
      (∀ t ∈ titles, (fetch t).getD "" = "") →
      scrapeLoop fetch titles rows li = (rows, li) := by
  intro titles
  induction titles with
  | nil => intro rows li _; rfl
  | cons t ts ih =>
    intro rows li h
    have ht := h t (List.mem_cons_self t ts)
    have hrest : ∀ x ∈ ts, (fetch x).getD "" = "" :=
      fun x hx => h x (List.mem_cons_of_mem t hx)
    cases hf : fetch t with
    | none =>
      simp only [scrapeLoop, hf]
      exact ih rows li hrest
    | some w =>
      rw [hf] at ht
      have hw : w = "" := by simpa using ht
      subst hw
      simp only [scrapeLoop, hf]
      rw [if_pos (show (([] : List Char).isEmpty = true) from rfl)]
      exact ih rows li hrest

/-- C9: when the enrichment run appends no row at all — the title list is
empty, or every content fetch returns no text (`None` or the empty string) —
`scrape_coasters` hits the unbound loop variable `info` while deriving the
CSV header, i.e. fails before the output file is opened: the model returns
`Except.error .unboundInfo` and no `ScrapeOutput` (hence no file) is
produced. -/
theorem C9_no_rows_unbound_info (titles : List String) (fetch : String → Option String)
    (h : ∀ t ∈ titles, (fetch t).getD "" = "") :
    scrape_coasters titles fetch = .error .unboundInfo := by
  unfold scrape_coasters
  rw [scrapeLoop_all_skipped fetch titles [] none h]

/-- Witness for `C9_no_rows_unbound_info`: a one-title run whose only fetch
returns no text. -/
theorem C9_no_rows_unbound_info_witness :
    scrape_coasters ["A"] (fun _ => none) = .error .unboundInfo :=
  C9_no_rows_unbound_info ["A"] (fun _ => none) (by intro t _; rfl)

/-- C1 (code bug): the claim — exactly one output row per successfully
enriched entity — is the spec's and plainly the code's intent, but the stray
second `rows.append(info)` after the loop (line 208, a copy-paste leftover
together with the repeated `info["title"] = title` and `time.sleep`) writes
the last enriched entity's row twice.  Concretely: one title, whose fetch
returns the wikitext `"x"`, is enriched once, yet the file receives 2 rows.
The identifier column does come first, as stated. -/
theorem C1_duplicate_last_row :
    (scrape_coasters ["A"] (fun _ => some "x")).toOption.map
        (fun out => (out.fileRows.length, out.fieldnames.head?))
      = some (2, some "title") := by
  rfl

/-! ## Wiki-markup cleaning: `clean_wiki_text` (youtuber_data.py, lines 24-30)

The Python function returns `""` for non-string or blank input, replaces piped
link markup (`target|label` inside double square brackets, target non-empty
and free of pipes and closing brackets, label non-empty) with the label,
replaces bare link markup with its content, removes every remaining square
bracket and strips.  The two regex substitutions are modelled by a single
left-to-right scan; the scan's recursion is bounded by the character count
so that it stays structurally recursive (the bound is never reached since
every step consumes at least one character). -/

/-- Reads the link interior up to the first closing double bracket, failing
on a stray single closing bracket (the regexes forbid `]` inside a link). -/
def linkInner : List Char → Option (List Char × List Char)
  | [] => none
  | c :: rest =>
    if c == ']' then
      match rest with
      | [] => none
      | d :: rest' => if d == ']' then some ([], rest') else none
    else (linkInner rest).map (fun p => (c :: p.1, p.2))

/-- The replacement for one link interior: the label of a well-formed piped
link, otherwise the interior itself (the bare-link substitution). -/
def linkRepl (inner : List Char) : List Char :=
  let target := inner.takeWhile (fun c => c != '|')
  match inner.dropWhile (fun c => c != '|') with
  | [] => inner
  | _ :: label => if target.isEmpty || label.isEmpty then inner else label

def replLinksGo : Nat → List Char → List Char
  | _, [] => []
  | 0, l => l
  | fuel+1, c :: cs =>
    if c == '[' then
      match cs with
      | [] => [c]
      | d :: cs' =>
        if d == '[' then
          match linkInner cs' with
          | some (inner, rest) => linkRepl inner ++ replLinksGo fuel rest
          | none => c :: replLinksGo fuel (d :: cs')
        else c :: replLinksGo fuel (d :: cs')
    else c :: replLinksGo fuel cs

def replLinks (l : List Char) : List Char := replLinksGo l.length l

def clean_wiki_text (s : String) : String :=
  if (trimChars s.data).isEmpty then ""
  else pyStrip (String.mk ((replLinks s.data).filter (fun c => c != '[' && c != ']')))

/-! ## Query construction: `build_query` (youtuber_data.py, lines 33-47) -/

def build_query (title park location country : String) : String :=
  let t := clean_wiki_text title
  let p := clean_wiki_text park
  let l := clean_wiki_text location
  let c := clean_wiki_text country
  if !p.data.isEmpty then "\"" ++ t ++ "\" \"" ++ p ++ "\" roller coaster"
  else if !l.data.isEmpty then "\"" ++ t ++ "\" \"" ++ l ++ "\" roller coaster"
  else if !c.data.isEmpty then "\"" ++ t ++ "\" \"" ++ c ++ "\" roller coaster"
  else "\"" ++ t ++ "\" roller coaster"

/-! ## Candidate search and statistics fetch (youtuber_data.py, lines 50-118)

`yt_search_candidates` projects the search response items to candidates,
dropping items without a video identifier.  `yt_fetch_video_stats` batches
the identifiers in groups of 50; each batch is answered by the external
`api` with a quota error (the function stops batching and returns the partial
map — the error is *not* re-raised), another error (the batch is skipped) or
an item list whose numeric fields parse only when they are non-empty digit
strings.  The statistics map is an insertion-ordered association list with
last-binding-wins lookup, like the Python dict. -/

structure SearchItem where
  videoId : Option String
  title : String
  channelTitle : String
  publishedAt : String
deriving DecidableEq, Repr

structure Candidate where
  video_id : String
  video_title : String
  channel_title : String
  published_at : String
deriving DecidableEq, Repr

def yt_search_candidates (items : List SearchItem) : List Candidate :=
  items.filterMap (fun it =>
    it.videoId.map (fun v => ⟨v, it.title, it.channelTitle, it.publishedAt⟩))

structure RawStats where
  viewCount : Option String
  likeCount : Option String
  commentCount : Option String
  channelId : String
  channelTitle : String
deriving DecidableEq, Repr

structure VideoStats where
  view_count : Option Nat
  like_count : Option Nat
  comment_count : Option Nat
  channel_id : String
  channel_title_full : String
deriving DecidableEq, Repr

/-- `int(x) if x and x.isdigit() else None` applied to the three numeric raw
fields; an absent raw string stays absent. -/
def statsOfRaw (r : RawStats) : VideoStats :=
  ⟨r.viewCount.bind pyDigits?, r.likeCount.bind pyDigits?, r.commentCount.bind pyDigits?,
   r.channelId, r.channelTitle⟩

inductive BatchResult
  | quota
  | err
  | ok (items : List (String × RawStats))

/-- `range(0, len(video_ids), 50)` batching: splits a list into consecutive
chunks of 50 (the recursion is bounded by the list length, which suffices
since every chunk consumes at least one element). -/
def chunksGo : Nat → List String → List (List String)
  | _, [] => []
  | 0, l => [l]
  | fuel+1, a :: l => (a :: l.take 49) :: chunksGo fuel (l.drop 49)

def chunksOf50 (l : List String) : List (List String) := chunksGo l.length l

def statsGo (api : List String → BatchResult) :
    List (List String) → List (String × VideoStats) → List (String × VideoStats)
  | [], acc => acc
  | b :: bs, acc =>
    match api b with
    | .quota => acc
    | .err => statsGo api bs acc
    | .ok items => statsGo api bs (acc ++ items.map (fun p => (p.1, statsOfRaw p.2)))

/-- youtuber_data.py lines 76-118.  A quota error on a batch stops the batch
loop and returns the partial map (`break`); the `HttpError` is consumed here
and never propagates to the caller.  Any other batch error skips the batch. -/
def yt_fetch_video_stats (api : List String → BatchResult) (video_ids : List String) :
    List (String × VideoStats) :=
  statsGo api (chunksOf50 video_ids) []

def dictGetS (m : List (String × VideoStats)) (k : String) : Option VideoStats :=
  (m.reverse.find? (fun p => p.1 == k)).map Prod.snd

/-! ## Ranking and the resumable loop: `build_coaster_videos_csv`
(youtuber_data.py, lines 122-227) -/

structure VideoRow where
  video_id : String
  video_title : String
  channel_title : String
  published_at : String
  coaster_title : String
  park : String
  location : String
  country : String
  search_query : String
  fetched_at_utc : String
  view_count : Option Nat
  like_count : Option Nat
  comment_count : Option Nat
  channel_id : Option String
  channel_title_api : Option String
deriving DecidableEq, Repr

/-- One row of the in-memory frame built for one coaster (lines 194-210):
the candidate's snippet fields merged with its statistics when present
(`stats_map.get(vid, {})` followed by `.get(...)`, so a missing entry leaves
every statistics field absent). -/
def mkVideoRow (ts query ct parkC locC ctryC : String)
    (sm : List (String × VideoStats)) (c : Candidate) : VideoRow :=
  match dictGetS sm c.video_id with
  | none =>
    ⟨c.video_id, c.video_title, c.channel_title, c.published_at,
     ct, parkC, locC, ctryC, query, ts, none, none, none, none, none⟩
  | some s =>
    ⟨c.video_id, c.video_title, c.channel_title, c.published_at,
     ct, parkC, locC, ctryC, query, ts, s.view_count, s.like_count,
     s.comment_count, some s.channel_id, some s.channel_title_full⟩

/-- Insertion sort parameterised by a Boolean comparison; used both for
`sorted(...)` on video identifiers and (descending, by view count) for the
pandas `sort_values` step.  Pandas' quicksort fixes no tie order, so any
view-count-descending permutation is a faithful model. -/
def insertBy {α : Type} (le : α → α → Bool) (a : α) : List α → List α
  | [] => [a]
  | b :: l => if le a b then a :: b :: l else b :: insertBy le a l

def sortBy {α : Type} (le : α → α → Bool) : List α → List α
  | [] => []
  | a :: l => insertBy le a (sortBy le l)

/-- `view_count.fillna(0)`: the ranking key. -/
def viewKey (r : VideoRow) : Nat := r.view_count.getD 0

def rowGe (a b : VideoRow) : Bool := viewKey b ≤ viewKey a

/-- Lines 212-217: sort the coaster's rows by view count descending (missing
counts as 0) and keep the first `top_k_by_views`. -/
def rankTopK (rows : List VideoRow) (k : Nat) : List VideoRow :=
  (sortBy rowGe rows).take k

structure SourceRow where
  title : String
  park : String
  location : String
  country : String
deriving DecidableEq, Repr

inductive SearchResult
  | quota
  | err
  | ok (items : List SearchItem)

structure RunState where
  file : List VideoRow
  processed : List String
  visited : List Nat
  searched : List Nat
  today : Nat
deriving Repr

/-- The per-coaster loop (lines 152-225), one constructor case per path:
skip when the cleaned title is already processed; a quota error during search
breaks the whole loop (returning the state reached so far); another search
error continues with the next coaster; zero candidates marks the title
processed without writing; otherwise fetch statistics for the sorted
deduplicated candidate identifiers, build rows, rank, append to the file and
mark processed.  The external search response is a function of the coaster's
position in the frame (each coaster's query is asked exactly once per
attempt); `visited` records every row the loop reached and `searched` every
row for which the search call was actually issued. -/
def buildLoop (ts : String) (k : Nat) (searchApi : Nat → SearchResult)
    (statsApi : List String → BatchResult) :
    List (Nat × SourceRow) → RunState → RunState
  | [], st => st
  | (i, r) :: rest, st =>
    let title := pyStrip r.title
    let park := pyStrip r.park
    let location := pyStrip r.location
    let country := pyStrip r.country
    let ct := clean_wiki_text title
    if st.processed.contains ct then
      buildLoop ts k searchApi statsApi rest { st with visited := st.visited ++ [i] }
    else
      let query := build_query title park location country
      match searchApi i with
      | .quota =>
        { st with visited := st.visited ++ [i], searched := st.searched ++ [i] }
      | .err =>
        buildLoop ts k searchApi statsApi rest
          { st with visited := st.visited ++ [i], searched := st.searched ++ [i] }
      | .ok items =>
        let candidates := yt_search_candidates items
        if candidates.isEmpty then
          buildLoop ts k searchApi statsApi rest
            { st with visited := st.visited ++ [i], searched := st.searched ++ [i],
                      processed := st.processed ++ [ct] }
        else
          let video_ids := sortBy strLeB (candidates.map (fun c => c.video_id)).dedup
          let sm := yt_fetch_video_stats statsApi video_ids
          let rows := candidates.map
            (mkVideoRow ts query ct (clean_wiki_text park) (clean_wiki_text location)
              (clean_wiki_text country) sm)
          let ranked := rankTopK rows k
          buildLoop ts k searchApi statsApi rest
            { file := st.file ++ ranked, processed := st.processed ++ [ct],
              visited := st.visited ++ [i], searched := st.searched ++ [i],
              today := st.today + 1 }

/-- The driver (lines 122-227): truncate the source frame to `max_coasters`,
load the Processed-Set from the coaster-title column of the existing output
file when one exists (`existing = none` models a missing file), then run the
per-coaster loop.  The output file is append-only, so its final contents are
the state's `file` list. -/
def build_coaster_videos_csv (ts : String) (maxCoasters k : Nat)
    (searchApi : Nat → SearchResult) (statsApi : List String → BatchResult)
    (source : List SourceRow) (existing : Option (List VideoRow)) : RunState :=
  let df := source.take maxCoasters
  let processed0 :=
    match existing with
    | none => []
    | some rows => (rows.map (fun r => r.coaster_title)).dedup
  buildLoop ts k searchApi statsApi df.enum
    { file := existing.getD [], processed := processed0,
      visited := [], searched := [], today := 0 }

lemma insertBy_perm {α : Type} (le : α → α → Bool) (a : α) :
    ∀ l : List α, (insertBy le a l).Perm (a :: l) := by
  intro l
  induction l with
  | nil => exact List.Perm.refl _
  | cons b l ih =>
    rw [insertBy]
    split
    · exact List.Perm.refl _
    · exact (ih.cons b).trans (List.Perm.swap a b l)

lemma sortBy_perm {α : Type} (le : α → α → Bool) :
    ∀ l : List α, (sortBy le l).Perm l := by
  intro l
  induction l with
  | nil => exact List.Perm.refl _
  | cons a l ih =>
    exact (insertBy_perm le a (sortBy le l)).trans (ih.cons a)

lemma insertBy_pairwise {α : Type} (le : α → α → Bool)
    (htot : ∀ a b, le a b = true ∨ le b a = true)
    (htrans : ∀ a b c, le a b = true → le b c = true → le a c = true)
    (a : α) (l : List α) (h : l.Pairwise (fun x y => le x y = true)) :
    (insertBy le a l).Pairwise (fun x y => le x y = true) := by
  induction l with
  | nil => simp [insertBy]
  | cons b l ih =>
    rw [List.pairwise_cons] at h
    obtain ⟨hb, hl⟩ := h
    by_cases hab : le a b = true
    · rw [insertBy, if_pos hab]
      refine List.Pairwise.cons ?_ (List.Pairwise.cons hb hl)
      intro x hx
      rcases List.mem_cons.mp hx with rfl | hx
      · exact hab
      · exact htrans a b x hab (hb x hx)
    · rw [insertBy, if_neg hab]
      refine List.Pairwise.cons ?_ (ih hl)
      intro x hx
      have hmem : x ∈ a :: l := (insertBy_perm le a l).mem_iff.mp hx
      rcases List.mem_cons.mp hmem with rfl | hx'
      · rcases htot x b with h1 | h2
        · exact absurd h1 hab
        · exact h2
      · exact hb x hx'

lemma sortBy_pairwise {α : Type} (le : α → α → Bool)
    (htot : ∀ a b, le a b = true ∨ le b a = true)
    (htrans : ∀ a b c, le a b = true → le b c = true → le a c = true) :
    ∀ l : List α, (sortBy le l).Pairwise (fun x y => le x y = true) := by
  intro l
  induction l with
  | nil => simp [sortBy]
  | cons a l ih => exact insertBy_pairwise le htot htrans a (sortBy le l) ih

lemma rowGe_total : ∀ a b : VideoRow, rowGe a b = true ∨ rowGe b a = true := by
  intro a b
  simp only [rowGe, decide_eq_true_eq]
  omega

lemma rowGe_trans : ∀ a b c : VideoRow,
    rowGe a b = true → rowGe b c = true → rowGe a c = true := by
  intro a b c
  simp only [rowGe, decide_eq_true_eq]
  omega

lemma mem_rankTopK {r : VideoRow} {rows : List VideoRow} {k : Nat}
    (h : r ∈ rankTopK rows k) : r ∈ rows :=
  (sortBy_perm rowGe rows).mem_iff.mp (List.take_subset k _ h)

/-- The spec's test vector: five candidate rows whose view counts are
10, absent, 30, 5, 20 (all other fields blank). -/
def exRow (vid : String) (v : Option Nat) : VideoRow :=
  ⟨vid, "", "", "", "", "", "", "", "", "", v, none, none, none, none⟩

def exampleRows : List VideoRow :=
  [exRow "v1" (some 10), exRow "v2" none, exRow "v3" (some 30),
   exRow "v4" (some 5), exRow "v5" (some 20)]

/-- C8: the RANKED step `rankTopK` (the sort-descending-and-take-K used by the
loop) returns at most K rows, sorted by view count descending with an absent
count treated as 0, and every returned row is one of the input rows; on the
spec's concrete instance — view counts [10, None, 30, 5, 20], K = 3 — the
output view counts are [30, 20, 10] in that order. -/
theorem C8_rank_top_k :
    (∀ (rows : List VideoRow) (k : Nat), (rankTopK rows k).length ≤ k)
    ∧ (∀ (rows : List VideoRow) (k : Nat),
        (rankTopK rows k).Pairwise (fun a b => viewKey b ≤ viewKey a))
    ∧ (∀ (rows : List VideoRow) (k : Nat),
        (rankTopK rows k).all (fun r => rows.contains r) = true)
    ∧ (rankTopK exampleRows 3).map (fun r => r.view_count)
        = [some 30, some 20, some 10] := by
  refine ⟨fun rows k => List.length_take_le k _, fun rows k => ?_, fun rows k => ?_, by rfl⟩
  · have hs := sortBy_pairwise rowGe rowGe_total rowGe_trans rows
    have := List.Pairwise.sublist (List.take_sublist k (sortBy rowGe rows)) hs
    refine this.imp ?_
    intro a b hab
    simpa [rowGe, decide_eq_true_eq] using hab
  · rw [List.all_eq_true]
    intro r hr
    have hm : r ∈ rows := mem_rankTopK hr
    simpa using hm

lemma ranked_fetched (ts query ct p l c : String) (sm : List (String × VideoStats))
    (cands : List Candidate) (k : Nat) :
    (rankTopK (cands.map (mkVideoRow ts query ct p l c sm)) k).all
      (fun r => r.fetched_at_utc == ts) = true := by
  rw [List.all_eq_true]
  intro r hr
  obtain ⟨cand, _, rfl⟩ := List.mem_map.mp (mem_rankTopK hr)
  cases hdg : dictGetS sm cand.video_id <;> simp [mkVideoRow, hdg]

lemma buildLoop_file_append (ts : String) (k : Nat) (sApi : Nat → SearchResult)
    (stApi : List String → BatchResult) :
    ∀ (rows : List (Nat × SourceRow)) (st : RunState),
      ∃ new : List VideoRow,
        (buildLoop ts k sApi stApi rows st).file = st.file ++ new
        ∧ new.all (fun r => r.fetched_at_utc == ts) = true := by
  intro rows
  induction rows with
  | nil => intro st; exact ⟨[], by simp [buildLoop]⟩
  | cons p rest ih =>
    intro st
    obtain ⟨i, r⟩ := p
    simp only [buildLoop]
    by_cases hp : st.processed.contains (clean_wiki_text (pyStrip r.title))
    · rw [if_pos hp]
      exact ih _
    · rw [if_neg hp]
      cases hs : sApi i with
      | quota => exact ⟨[], by simp⟩
      | err => exact ih _
      | ok items =>
        dsimp only
        by_cases hc : (yt_search_candidates items).isEmpty
        · rw [if_pos hc]
          exact ih _
        · rw [if_neg hc]
          obtain ⟨new, h1, h2⟩ := ih
            { file := st.file ++ rankTopK ((yt_search_candidates items).map
                (mkVideoRow ts
                  (build_query (pyStrip r.title) (pyStrip r.park)
                    (pyStrip r.location) (pyStrip r.country))
                  (clean_wiki_text (pyStrip r.title))
                  (clean_wiki_text (pyStrip r.park))
                  (clean_wiki_text (pyStrip r.location))
                  (clean_wiki_text (pyStrip r.country))
                  (yt_fetch_video_stats stApi
                    (sortBy strLeB ((yt_search_candidates items).map
                      (fun c => c.video_id)).dedup)))) k,
              processed := st.processed ++ [clean_wiki_text (pyStrip r.title)],
              visited := st.visited ++ [i], searched := st.searched ++ [i],
              today := st.today + 1 }
          refine ⟨rankTopK ((yt_search_candidates items).map
              (mkVideoRow ts
                (build_query (pyStrip r.title) (pyStrip r.park)
                  (pyStrip r.location) (pyStrip r.country))
                (clean_wiki_text (pyStrip r.title))
                (clean_wiki_text (pyStrip r.park))
                (clean_wiki_text (pyStrip r.location))
                (clean_wiki_text (pyStrip r.country))
                (yt_fetch_video_stats stApi
                  (sortBy strLeB ((yt_search_candidates items).map
                    (fun c => c.video_id)).dedup)))) k ++ new, ?_, ?_⟩
          · rw [h1, List.append_assoc]
          · rw [List.all_append, Bool.and_eq_true]
            exact ⟨ranked_fetched _ _ _ _ _ _ _ _ _, h2⟩

/-- C10: every row appended to the output file during one run of
`build_coaster_videos_csv` carries the run's single `fetched_at_utc`
timestamp `ts`, computed once before the per-coaster loop — whichever
coaster the row belongs to and whenever within the run its search and
statistics fetch happened. -/
theorem C10_uniform_timestamp (ts : String) (maxC k : Nat) (sApi : Nat → SearchResult)
    (stApi : List String → BatchResult) (src : List SourceRow)
    (existing : Option (List VideoRow)) :
    (((build_coaster_videos_csv ts maxC k sApi stApi src existing).file).drop
        (existing.getD []).length).all (fun r => r.fetched_at_utc == ts) = true := by
  obtain ⟨new, h1, h2⟩ := buildLoop_file_append ts k sApi stApi (src.take maxC).enum
    { file := existing.getD [],
      processed :=
        match existing with
        | none => []
        | some rows => (rows.map (fun r => r.coaster_title)).dedup,
      visited := [], searched := [], today := 0 }
  simp only [build_coaster_videos_csv]
  rw [h1]
  rw [List.drop_left]
  exact h2

lemma buildLoop_visits_all (ts : String) (k : Nat) (sApi : Nat → SearchResult)
    (stApi : List String → BatchResult) (hnq : ∀ i, sApi i ≠ SearchResult.quota) :
    ∀ (rows : List (Nat × SourceRow)) (st : RunState),
      (buildLoop ts k sApi stApi rows st).visited
        = st.visited ++ rows.map Prod.fst := by
  intro rows
  induction rows with
  | nil => intro st; simp [buildLoop]
  | cons p rest ih =>
    intro st
    obtain ⟨i, r⟩ := p
    simp only [buildLoop]
    by_cases hp : st.processed.contains (clean_wiki_text (pyStrip r.title))
    · rw [if_pos hp, ih]
      simp
    · rw [if_neg hp]
      cases hs : sApi i with
      | quota => exact absurd hs (hnq i)
      | err => rw [ih]; simp
      | ok items =>
        dsimp only
        by_cases hc : (yt_search_candidates items).isEmpty
        · rw [if_pos hc, ih]; simp
        · rw [if_neg hc, ih]; simp

/-- C2 (amended): a quota error during the statistics fetch does *not* abort
the ranking loop: `yt_fetch_video_stats` catches the error itself, stops
batching and returns the partial statistics map, so the loop body never sees
it and continues with the next coaster (the `except`-quota branch around the
stats call in `build_coaster_videos_csv` is unreachable).  Formally: as long
as the *search* responses contain no quota error, the loop visits every row
of the (truncated) source frame, whatever the statistics API answers —
including a quota error on every single batch.  Only a quota error during
search stops the loop. -/
theorem C2_stats_quota_does_not_abort (ts : String) (maxC k : Nat)
    (sApi : Nat → SearchResult) (stApi : List String → BatchResult)
    (src : List SourceRow) (existing : Option (List VideoRow))
    (hnq : ∀ i, sApi i ≠ SearchResult.quota) :
    (build_coaster_videos_csv ts maxC k sApi stApi src existing).visited
      = List.range (src.take maxC).length := by
  simp only [build_coaster_videos_csv]
  rw [buildLoop_visits_all ts k sApi stApi hnq]
  simp [List.enum_map_fst]

def srwA : SourceRow := ⟨"A", "", "", ""⟩

def srwB : SourceRow := ⟨"B", "", "", ""⟩

def sApiOkW : Nat → SearchResult := fun _ => .ok [⟨some "v", "t", "c", "p"⟩]

def stApiQuotaW : List String → BatchResult := fun _ => .quota

/-- Witness for `C2_stats_quota_does_not_abort`: a two-coaster run whose
statistics API answers every batch with a quota error still visits both
rows. -/
theorem C2_stats_quota_does_not_abort_witness :
    (build_coaster_videos_csv "T" 2 3 sApiOkW stApiQuotaW [srwA, srwB] none).visited
      = List.range ([srwA, srwB].take 2).length :=
  C2_stats_quota_does_not_abort "T" 2 3 sApiOkW stApiQuotaW [srwA, srwB] none
    (fun i h => by simp [sApiOkW] at h)

/-- C2 counterexample: the claim says a quota error during the stats fetch
stops the entire loop immediately at every position.  Concretely: two source
rows, each search returning one candidate (video id `"v"`), the stats API
answering *every* batch — in particular coaster 0's batch `["v"]` — with a
quota error.  The run nevertheless visits row 1 after row 0 and appends a
row for both coasters, so the loop did not stop at entity 0. -/
theorem C2_counterexample :
    stApiQuotaW ["v"] = BatchResult.quota
    ∧ (build_coaster_videos_csv "T" 2 3 sApiOkW stApiQuotaW [srwA, srwB] none).visited
        = [0, 1]
    ∧ (build_coaster_videos_csv "T" 2 3 sApiOkW stApiQuotaW [srwA, srwB] none).file.length
        = 2 := by
  exact ⟨rfl, by rfl, by rfl⟩

lemma enum_fst_pairwise {α : Type} (l : List α) :
    l.enum.Pairwise (fun p q => p.1 < q.1) := by
  have h : (l.enum.map Prod.fst).Pairwise (fun a b : Nat => a < b) := by
    rw [List.enum_map_fst]
    exact List.pairwise_lt_range _
  exact (List.pairwise_map).mp h

lemma buildLoop_quota_stops (ts : String) (k : Nat) (sApi : Nat → SearchResult)
    (stApi : List String → BatchResult) (i : Nat)
    (hq : sApi i = SearchResult.quota) :
    ∀ (rows : List (Nat × SourceRow)) (st : RunState),
      (∀ p ∈ rows, ∀ j ∈ st.visited, j < p.1) →
      rows.Pairwise (fun p q => p.1 < q.1) →
      i ∈ (buildLoop ts k sApi stApi rows st).searched →
      i ∉ st.searched →
      ∀ j ∈ (buildLoop ts k sApi stApi rows st).visited, j ≤ i := by
  intro rows
  induction rows with
  | nil =>
    intro st _ _ hmem hni
    rw [buildLoop] at hmem
    exact absurd hmem hni
  | cons p rest ih =>
    intro st hvis hpw hmem hni
    obtain ⟨i0, r⟩ := p
    rw [List.pairwise_cons] at hpw
    obtain ⟨hlt, hpw'⟩ := hpw
    have hvis0 : ∀ j ∈ st.visited, j < i0 :=
      fun j hj => hvis (i0, r) (List.mem_cons_self _ _) j hj
    simp only [buildLoop] at hmem ⊢
    by_cases hp : st.processed.contains (clean_wiki_text (pyStrip r.title))
    · rw [if_pos hp] at hmem ⊢
      refine ih _ ?_ hpw' hmem hni
      intro q hq' j hj
      rcases List.mem_append.mp hj with hj1 | hj2
      · exact hvis q (List.mem_cons_of_mem _ hq') j hj1
      · rw [List.mem_singleton] at hj2
        subst hj2
        exact hlt q hq'
    · rw [if_neg hp] at hmem ⊢
      cases hs : sApi i0 with
      | quota =>
        rw [hs] at hmem
        dsimp only at hmem ⊢
        have hii0 : i = i0 := by
          rcases List.mem_append.mp hmem with h1 | h2
          · exact absurd h1 hni
          · exact List.mem_singleton.mp h2
        subst hii0
        intro j hj
        rcases List.mem_append.mp hj with hj1 | hj2
        · exact le_of_lt (hvis0 j hj1)
        · exact le_of_eq (List.mem_singleton.mp hj2)
      | err =>
        rw [hs] at hmem
        dsimp only at hmem ⊢
        have hne : i ≠ i0 := by
          intro h
          rw [h, hs] at hq
          exact SearchResult.noConfusion hq
        refine ih _ ?_ hpw' hmem ?_
        · intro q hq' j hj
          rcases List.mem_append.mp hj with hj1 | hj2
          · exact hvis q (List.mem_cons_of_mem _ hq') j hj1
          · rw [List.mem_singleton] at hj2
            subst hj2
            exact hlt q hq'
        · intro h
          rcases List.mem_append.mp h with h1 | h2
          · exact hni h1
          · exact hne (List.mem_singleton.mp h2)
      | ok items =>
        rw [hs] at hmem
        dsimp only at hmem ⊢
        have hne : i ≠ i0 := by
          intro h
          rw [h, hs] at hq
          exact SearchResult.noConfusion hq
        by_cases hc : (yt_search_candidates items).isEmpty
        · rw [if_pos hc] at hmem ⊢
          refine ih _ ?_ hpw' hmem ?_
          · intro q hq' j hj
            rcases List.mem_append.mp hj with hj1 | hj2
            · exact hvis q (List.mem_cons_of_mem _ hq') j hj1
            · rw [List.mem_singleton] at hj2
              subst hj2
              exact hlt q hq'
          · intro h
            rcases List.mem_append.mp h with h1 | h2
            · exact hni h1
            · exact hne (List.mem_singleton.mp h2)
        · rw [if_neg hc] at hmem ⊢
          refine ih _ ?_ hpw' hmem ?_
          · intro q hq' j hj
            rcases List.mem_append.mp hj with hj1 | hj2
            · exact hvis q (List.mem_cons_of_mem _ hq') j hj1
            · rw [List.mem_singleton] at hj2
              subst hj2
              exact hlt q hq'
          · intro h
            rcases List.mem_append.mp h with h1 | h2
            · exact hni h1
            · exact hne (List.mem_singleton.mp h2)

/-- C5: a quota error during the candidate search stops the ranking loop
without raising (the model returns the run state normally — the Python code
hits `break`, never re-raises) and leaves every previously appended row
untouched: the initial output file is always a prefix of the final one, and
whenever the search for row `i` answered quota and that search was actually
issued, no row after `i` was even visited. -/
theorem C5_search_quota_stops (ts : String) (maxC k : Nat)
    (sApi : Nat → SearchResult) (stApi : List String → BatchResult)
    (src : List SourceRow) (existing : Option (List VideoRow)) (i : Nat)
    (hq : sApi i = SearchResult.quota) :
    (existing.getD []
        <+: (build_coaster_videos_csv ts maxC k sApi stApi src existing).file)
    ∧ (i ∈ (build_coaster_videos_csv ts maxC k sApi stApi src existing).searched →
        ∀ j ∈ (build_coaster_videos_csv ts maxC k sApi stApi src existing).visited,
          j ≤ i) := by
  constructor
  · obtain ⟨new, h1, _⟩ := buildLoop_file_append ts k sApi stApi (src.take maxC).enum
      { file := existing.getD [],
        processed :=
          match existing with
          | none => []
          | some rows => (rows.map (fun r => r.coaster_title)).dedup,
        visited := [], searched := [], today := 0 }
    exact ⟨new, h1.symm⟩
  · intro hmem
    exact buildLoop_quota_stops ts k sApi stApi i hq (src.take maxC).enum _
      (fun p _ j hj => absurd hj (List.not_mem_nil j))
      (enum_fst_pairwise _) hmem (List.not_mem_nil i)

def sApiQuotaW : Nat → SearchResult := fun _ => .quota

/-- Witness for `C5_search_quota_stops`: a concrete run whose very first
search answers quota. -/
theorem C5_search_quota_stops_witness :
    (([] : List VideoRow)
        <+: (build_coaster_videos_csv "T" 2 3 sApiQuotaW stApiQuotaW [srwA, srwB] none).file)
    ∧ (0 ∈ (build_coaster_videos_csv "T" 2 3 sApiQuotaW stApiQuotaW [srwA, srwB] none).searched →
        ∀ j ∈ (build_coaster_videos_csv "T" 2 3 sApiQuotaW stApiQuotaW [srwA, srwB] none).visited,
          j ≤ 0) :=
  C5_search_quota_stops "T" 2 3 sApiQuotaW stApiQuotaW [srwA, srwB] none 0 rfl

/-- The coaster-title column of the output file: what the resume step reads
to build the Processed-Set. -/
def fileTitles (f : List VideoRow) : List String := f.map (fun r => r.coaster_title)

lemma buildLoop_file_prefix (ts : String) (k : Nat) (sApi : Nat → SearchResult)
    (stApi : List String → BatchResult) (rows : List (Nat × SourceRow)) (st : RunState) :
    st.file <+: (buildLoop ts k sApi stApi rows st).file := by
  obtain ⟨new, h1, _⟩ := buildLoop_file_append ts k sApi stApi rows st
  exact ⟨new, h1.symm⟩

lemma rankTopK_title (ts q ct p l c : String) (sm : List (String × VideoStats))
    (cands : List Candidate) (k : Nat) :
    ∀ r ∈ rankTopK (cands.map (mkVideoRow ts q ct p l c sm)) k,
      r.coaster_title = ct := by
  intro r hr
  obtain ⟨cand, _, rfl⟩ := List.mem_map.mp (mem_rankTopK hr)
  cases hdg : dictGetS sm cand.video_id <;> simp [mkVideoRow, hdg]

lemma rankTopK_length (l : List VideoRow) (k : Nat) :
    (rankTopK l k).length = min k l.length := by
  rw [rankTopK, List.length_take, List.Perm.length_eq (sortBy_perm rowGe l)]

lemma buildLoop_rerun (ts1 ts2 : String) (k : Nat) (sApi : Nat → SearchResult)
    (stApi : List String → BatchResult) :
    ∀ (rows : List (Nat × SourceRow)) (s1 s2 : RunState),
      (∀ x, x ∈ s1.processed → x ∈ s2.processed) →
      (∀ x, x ∈ fileTitles (buildLoop ts1 k sApi stApi rows s1).file → x ∈ s2.processed) →
      (∀ x, x ∈ s2.processed →
        x ∈ s1.processed ∨ x ∈ fileTitles (buildLoop ts1 k sApi stApi rows s1).file) →
      (∀ x, x ∈ fileTitles s1.file → x ∈ s1.processed) →
      (buildLoop ts2 k sApi stApi rows s2).file = s2.file := by
  intro rows
  induction rows with
  | nil =>
    intro s1 s2 _ _ _ _
    rw [buildLoop]
  | cons p rest ih =>
    intro s1 s2 h1 h2 h3 h4
    obtain ⟨i0, r⟩ := p
    simp only [buildLoop] at h2 h3 ⊢
    set ct := clean_wiki_text (pyStrip r.title) with hct_def
    by_cases hp1 : s1.processed.contains ct = true
    · rw [if_pos hp1] at h2 h3
      have hct2 : s2.processed.contains ct = true := by
        have hm : ct ∈ s1.processed := by simpa using hp1
        simpa using h1 _ hm
      rw [if_pos hct2]
      exact ih { s1 with visited := s1.visited ++ [i0] }
        { s2 with visited := s2.visited ++ [i0] } h1 h2 h3 h4
    · rw [if_neg hp1] at h2 h3
      cases hs : sApi i0 with
      | quota =>
        rw [hs] at h2 h3
        dsimp only at h2 h3
        have hct2 : ¬ s2.processed.contains ct = true := by
          intro hc
          have hm : ct ∈ s2.processed := by simpa using hc
          rcases h3 _ hm with hx | hx
          · exact hp1 (by simpa using hx)
          · exact hp1 (by simpa using h4 _ hx)
        rw [if_neg hct2]
      | err =>
        rw [hs] at h2 h3
        dsimp only at h2 h3
        by_cases hct2 : s2.processed.contains ct = true
        · rw [if_pos hct2]
          exact ih
            { s1 with
              visited := s1.visited ++ [i0]
              searched := s1.searched ++ [i0] }
            { s2 with visited := s2.visited ++ [i0] }
            h1 h2 h3 h4
        · rw [if_neg hct2]
          dsimp only
          exact ih
            { s1 with
              visited := s1.visited ++ [i0]
              searched := s1.searched ++ [i0] }
            { s2 with
              visited := s2.visited ++ [i0]
              searched := s2.searched ++ [i0] }
            h1 h2 h3 h4
      | ok items =>
        rw [hs] at h2 h3
        dsimp only at h2 h3
        set cands := yt_search_candidates items with hcands_def
        by_cases hcand : cands.isEmpty = true
        · rw [if_pos hcand] at h2 h3
          by_cases hct2 : s2.processed.contains ct = true
          · rw [if_pos hct2]
            refine ih
              { s1 with
                processed := s1.processed ++ [ct]
                visited := s1.visited ++ [i0]
                searched := s1.searched ++ [i0] }
              { s2 with visited := s2.visited ++ [i0] }
              ?_ h2 ?_ ?_
            · intro x hx
              rcases List.mem_append.mp hx with hx1 | hx2
              · exact h1 x hx1
              · rw [List.mem_singleton] at hx2
                subst hx2
                simpa using hct2
            · intro x hx
              rcases h3 x hx with hx1 | hx2
              · exact Or.inl (List.mem_append.mpr (Or.inl hx1))
              · exact Or.inr hx2
            · intro x hx
              exact List.mem_append.mpr (Or.inl (h4 x hx))
          · rw [if_neg hct2]
            dsimp only
            rw [if_pos hcand]
            refine ih
              { s1 with
                processed := s1.processed ++ [ct]
                visited := s1.visited ++ [i0]
                searched := s1.searched ++ [i0] }
              { s2 with
                processed := s2.processed ++ [ct]
                visited := s2.visited ++ [i0]
                searched := s2.searched ++ [i0] }
              ?_ ?_ ?_ ?_
            · intro x hx
              rcases List.mem_append.mp hx with hx1 | hx2
              · exact List.mem_append.mpr (Or.inl (h1 x hx1))
              · exact List.mem_append.mpr (Or.inr hx2)
            · intro x hx
              exact List.mem_append.mpr (Or.inl (h2 x hx))
            · intro x hx
              rcases List.mem_append.mp hx with hx1 | hx2
              · rcases h3 x hx1 with hy | hy
                · exact Or.inl (List.mem_append.mpr (Or.inl hy))
                · exact Or.inr hy
              · exact Or.inl (List.mem_append.mpr (Or.inr hx2))
            · intro x hx
              exact List.mem_append.mpr (Or.inl (h4 x hx))
        · rw [if_neg hcand] at h2 h3
          set q := build_query (pyStrip r.title) (pyStrip r.park)
            (pyStrip r.location) (pyStrip r.country) with hq_def
          set parkC := clean_wiki_text (pyStrip r.park) with hpark_def
          set locC := clean_wiki_text (pyStrip r.location) with hloc_def
          set ctryC := clean_wiki_text (pyStrip r.country) with hctry_def
          set sm := yt_fetch_video_stats stApi
            (sortBy strLeB (cands.map (fun c => c.video_id)).dedup) with hsm_def
          set ranked1 := rankTopK (cands.map (mkVideoRow ts1 q ct parkC locC ctryC sm)) k
            with hr1_def
          by_cases hct2 : s2.processed.contains ct = true
          · rw [if_pos hct2]
            refine ih
              { s1 with
                file := s1.file ++ ranked1
                processed := s1.processed ++ [ct]
                visited := s1.visited ++ [i0]
                searched := s1.searched ++ [i0]
                today := s1.today + 1 }
              { s2 with visited := s2.visited ++ [i0] }
              ?_ h2 ?_ ?_
            · intro x hx
              rcases List.mem_append.mp hx with hx1 | hx2
              · exact h1 x hx1
              · rw [List.mem_singleton] at hx2
                subst hx2
                simpa using hct2
            · intro x hx
              rcases h3 x hx with hx1 | hx2
              · exact Or.inl (List.mem_append.mpr (Or.inl hx1))
              · exact Or.inr hx2
            · intro x hx
              rw [fileTitles, List.map_append] at hx
              rcases List.mem_append.mp hx with hx1 | hx2
              · exact List.mem_append.mpr (Or.inl (h4 x hx1))
              · obtain ⟨row, hrow, hrx⟩ := List.mem_map.mp hx2
                have hti := rankTopK_title ts1 q ct parkC locC ctryC sm cands k row
                  (by rw [← hr1_def]; exact hrow)
                rw [← hrx, hti]
                exact List.mem_append.mpr (Or.inr (List.mem_singleton.mpr rfl))
          · rw [if_neg hct2]
            dsimp only
            rw [if_neg hcand]
            set ranked2 := rankTopK (cands.map (mkVideoRow ts2 q ct parkC locC ctryC sm)) k
              with hr2_def
            have hr1nil : ranked1 = [] := by
              by_contra hne
              obtain ⟨row, hrow⟩ := List.exists_mem_of_ne_nil _ hne
              have hct_row : row.coaster_title = ct := by
                refine rankTopK_title ts1 q ct parkC locC ctryC sm cands k row ?_
                rw [← hr1_def]
                exact hrow
              have hpre := buildLoop_file_prefix ts1 k sApi stApi rest
                { file := s1.file ++ ranked1
                  processed := s1.processed ++ [ct]
                  visited := s1.visited ++ [i0]
                  searched := s1.searched ++ [i0]
                  today := s1.today + 1 }
              have hrow_in : row ∈ (buildLoop ts1 k sApi stApi rest
                  { file := s1.file ++ ranked1
                    processed := s1.processed ++ [ct]
                    visited := s1.visited ++ [i0]
                    searched := s1.searched ++ [i0]
                    today := s1.today + 1 }).file :=
                hpre.subset (List.mem_append.mpr (Or.inr hrow))
              have hctF : ct ∈ fileTitles (buildLoop ts1 k sApi stApi rest
                  { file := s1.file ++ ranked1
                    processed := s1.processed ++ [ct]
                    visited := s1.visited ++ [i0]
                    searched := s1.searched ++ [i0]
                    today := s1.today + 1 }).file := by
                rw [fileTitles]
                exact List.mem_map.mpr ⟨row, hrow_in, hct_row⟩
              have hmem2 : ct ∈ s2.processed := h2 _ hctF
              exact hct2 (by simpa using hmem2)
            have hr2nil : ranked2 = [] := by
              have hlen1 : ranked1.length
                  = min k (cands.map (mkVideoRow ts1 q ct parkC locC ctryC sm)).length := by
                rw [hr1_def]
                exact rankTopK_length _ _
              have hlen2 : ranked2.length
                  = min k (cands.map (mkVideoRow ts2 q ct parkC locC ctryC sm)).length := by
                rw [hr2_def]
                exact rankTopK_length _ _
              rw [List.length_map] at hlen1 hlen2
              rw [← List.length_eq_zero, hlen2, ← hlen1, hr1nil]
              rfl
            have hres := ih
              { file := s1.file ++ ranked1
                processed := s1.processed ++ [ct]
                visited := s1.visited ++ [i0]
                searched := s1.searched ++ [i0]
                today := s1.today + 1 }
              { file := s2.file ++ ranked2
                processed := s2.processed ++ [ct]
                visited := s2.visited ++ [i0]
                searched := s2.searched ++ [i0]
                today := s2.today + 1 }
              (by
                intro x hx
                rcases List.mem_append.mp hx with hx1 | hx2
                · exact List.mem_append.mpr (Or.inl (h1 x hx1))
                · exact List.mem_append.mpr (Or.inr hx2))
              (by
                intro x hx
                exact List.mem_append.mpr (Or.inl (h2 x hx)))
              (by
                intro x hx
                rcases List.mem_append.mp hx with hx1 | hx2
                · rcases h3 x hx1 with hy | hy
                  · exact Or.inl (List.mem_append.mpr (Or.inl hy))
                  · exact Or.inr hy
                · exact Or.inl (List.mem_append.mpr (Or.inr hx2)))
              (by
                intro x hx
                rw [fileTitles, List.map_append] at hx
                rcases List.mem_append.mp hx with hx1 | hx2
                · exact List.mem_append.mpr (Or.inl (h4 x hx1))
                · obtain ⟨row, hrow, hrx⟩ := List.mem_map.mp hx2
                  have hti := rankTopK_title ts1 q ct parkC locC ctryC sm cands k row
                    (by rw [← hr1_def]; exact hrow)
                  rw [← hrx, hti]
                  exact List.mem_append.mpr (Or.inr (List.mem_singleton.mpr rfl)))
            rw [hres]
            show s2.file ++ ranked2 = s2.file
            rw [hr2nil, List.append_nil]

/-- C3 (amended, first half): running the ranking loop a second time over the
same source rows, with the external search and statistics APIs returning the
same responses, appends zero new rows — the output file after the second run
(which loads its Processed-Set from the file the first run left) is exactly
the file the first run produced, even though the second run may carry a
different fetch timestamp.  (The claim's stated reason — that *all* entities
are already in the loaded Processed-Set — is false; see the
counterexample.) -/
theorem C3_second_run_zero_rows (ts1 ts2 : String) (maxC k : Nat)
    (sApi : Nat → SearchResult) (stApi : List String → BatchResult)
    (src : List SourceRow) (existing : Option (List VideoRow)) :
    (build_coaster_videos_csv ts2 maxC k sApi stApi src
        (some (build_coaster_videos_csv ts1 maxC k sApi stApi src existing).file)).file
      = (build_coaster_videos_csv ts1 maxC k sApi stApi src existing).file := by
  cases existing with
  | none =>
    simp only [build_coaster_videos_csv]
    refine buildLoop_rerun ts1 ts2 k sApi stApi (src.take maxC).enum
      { file := ([] : List VideoRow)
        processed := []
        visited := []
        searched := []
        today := 0 } _ ?_ ?_ ?_ ?_
    · intro x hx
      exact absurd hx (List.not_mem_nil x)
    · intro x hx
      exact List.mem_dedup.mpr hx
    · intro x hx
      exact Or.inr (List.mem_dedup.mp hx)
    · intro x hx
      exact absurd hx (by simp [fileTitles])
  | some rows0 =>
    simp only [build_coaster_videos_csv]
    refine buildLoop_rerun ts1 ts2 k sApi stApi (src.take maxC).enum
      { file := rows0
        processed := (rows0.map (fun r => r.coaster_title)).dedup
        visited := []
        searched := []
        today := 0 } _ ?_ ?_ ?_ ?_
    · intro x hx
      have hx' : x ∈ rows0.map (fun r => r.coaster_title) := List.mem_dedup.mp hx
      obtain ⟨row, hrow, hxeq⟩ := List.mem_map.mp hx'
      have hpre := buildLoop_file_prefix ts1 k sApi stApi (src.take maxC).enum
        { file := rows0
          processed := (rows0.map (fun r => r.coaster_title)).dedup
          visited := []
          searched := []
          today := 0 }
      exact List.mem_dedup.mpr (List.mem_map.mpr ⟨row, hpre.subset hrow, hxeq⟩)
    · intro x hx
      exact List.mem_dedup.mpr hx
    · intro x hx
      exact Or.inr (List.mem_dedup.mp hx)
    · intro x hx
      exact List.mem_dedup.mpr hx

def sApiNoCandW : Nat → SearchResult := fun _ => .ok []

/-- C3 counterexample (second half of the claim): after a first run in which
the single entity's search succeeded with zero candidates, that entity was
added to the in-memory Processed-Set only — the run wrote no row, so the
entity's cleaned title is *not* in the Processed-Set the second run loads
from the output file.  (The second run re-attempts it and again writes
nothing, so the zero-new-rows half still holds.) -/
theorem C3_counterexample :
    (build_coaster_videos_csv "T" 1 3 sApiNoCandW stApiQuotaW [srwA] none).file = []
    ∧ (build_coaster_videos_csv "T" 1 3 sApiNoCandW stApiQuotaW [srwA] none).processed
        = ["A"]
    ∧ clean_wiki_text (pyStrip srwA.title) = "A"
    ∧ ¬ ("A" ∈ (((build_coaster_videos_csv "T" 1 3 sApiNoCandW stApiQuotaW
          [srwA] none).file).map (fun r => r.coaster_title)).dedup) := by
  have hfile : (build_coaster_videos_csv "T" 1 3 sApiNoCandW stApiQuotaW [srwA] none).file
      = [] := by rfl
  refine ⟨hfile, by rfl, by rfl, ?_⟩
  rw [hfile]
  simp
